import Mathlib

/-!
Verification development for the plotly.py client library.

The development shallowly embeds the parts of the code that the checked
properties are about:

* `plotly/graph_objs/_funnel.py`: the generated `Funnel` trace class, with
  its `_valid_props` set, its property accessors backed by a dict-like
  store, and its constructor (first-argument dispatch, populate loop,
  read-only `type` literal, leftover-kwargs processing).
* `plotly/validators/.../_weight.py` and `_textcase.py`: declarative
  configurations of enumerated per-field validators.
* the plotting-express scatter builder (its implementation lives outside
  the analysed sources; it is modelled from the specification where noted).

Python values are embedded as `PyVal` (with `PyVal.none` standing for the
Python `None`), and Python dicts as insertion-ordered association lists
with unique keys.
-/

set_option maxRecDepth 8000

namespace Plotly

/-- Embedding of the Python values that flow through the analysed code:
`None`, booleans, integers and strings. -/
inductive PyVal where
  | none
  | bool (b : Bool)
  | int (n : Int)
  | str (s : String)
deriving DecidableEq, Repr

/-- A Python dict embedded as an insertion-ordered association list.
Real dicts have unique keys; theorems that depend on uniqueness carry a
`Nodup` hypothesis on the key list. -/
abbrev Dict : Type := List (String × PyVal)

namespace Dict

/-- Keys of the dict, in order. -/
def keys (d : Dict) : List String :=
  List.map Prod.fst d

/-- Dict lookup: the value at the first occurrence of the key. -/
def lookup (d : Dict) (k : String) : Option PyVal :=
  match d with
  | [] => Option.none
  | (k', v) :: rest => if k' = k then some v else lookup rest k

/-- Embedding of Python `d.pop(k, None)`: the value at `k` (or `None` when
absent) together with the dict with the first occurrence of `k` removed. -/
def pop (d : Dict) (k : String) : PyVal × Dict :=
  match d with
  | [] => (PyVal.none, [])
  | (k', v) :: rest =>
      if k' = k then (v, rest)
      else ((pop rest k).1, (k', v) :: (pop rest k).2)

/-- Embedding of Python dict assignment `d[k] = v`: update in place when the
key is present, append otherwise. -/
def set (d : Dict) (k : String) (v : PyVal) : Dict :=
  match d with
  | [] => [(k, v)]
  | (k', v') :: rest => if k' = k then (k, v) :: rest else (k', v') :: set rest k v

end Dict

/-! ### Basic dict lemmas -/

theorem Dict.lookup_set_self (d : Dict) (k : String) (v : PyVal) :
    (d.set k v).lookup k = some v := by
  induction d with
  | nil => simp [Dict.set, Dict.lookup]
  | cons kv rest ih =>
      by_cases h : kv.1 = k
      · simp [Dict.set, Dict.lookup, h]
      · simp [Dict.set, Dict.lookup, h, ih]

theorem Dict.lookup_set_other (d : Dict) (k k' : String) (v : PyVal) (h : k' ≠ k) :
    (d.set k' v).lookup k = d.lookup k := by
  induction d with
  | nil => simp [Dict.set, Dict.lookup, h]
  | cons kv rest ih =>
      by_cases hk : kv.1 = k'
      · simp [Dict.set, Dict.lookup, hk, h]
      · simp [Dict.set, Dict.lookup, hk, ih]

theorem Dict.pop_fst_eq_lookup (d : Dict) (k : String) :
    (d.pop k).1 = ((d.lookup k).getD PyVal.none) := by
  induction d with
  | nil => simp [Dict.pop, Dict.lookup]
  | cons kv rest ih =>
      by_cases h : kv.1 = k
      · simp [Dict.pop, Dict.lookup, h]
      · simp [Dict.pop, Dict.lookup, h, ih]

theorem Dict.pop_of_not_mem (d : Dict) (k : String) (h : k ∉ d.keys) :
    d.pop k = (PyVal.none, d) := by
  induction d with
  | nil => simp [Dict.pop]
  | cons kv rest ih =>
      simp only [Dict.keys, List.map_cons, List.mem_cons] at h
      push_neg at h
      have h1 : kv.1 ≠ k := fun he => h.1 he.symm
      have h2 : k ∉ Dict.keys rest := by
        simpa [Dict.keys] using h.2
      simp [Dict.pop, h1, ih h2]

/-- Popping one key and then looking up a different key gives the same
result as looking it up directly. -/
theorem Dict.lookup_pop_other (d : Dict) (k k' : String) (h : k' ≠ k) :
    (d.pop k').2.lookup k = d.lookup k := by
  induction d with
  | nil => simp [Dict.pop, Dict.lookup]
  | cons kv rest ih =>
      by_cases hk : kv.1 = k'
      · subst hk
        simp [Dict.pop, Dict.lookup, h]
      · simp [Dict.pop, Dict.lookup, hk, ih]

theorem Dict.keys_pop_subset (d : Dict) (k : String) :
    (d.pop k).2.keys ⊆ d.keys := by
  induction d with
  | nil => simp [Dict.pop]
  | cons kv rest ih =>
      obtain ⟨k', v⟩ := kv
      by_cases h : k' = k
      · simp only [Dict.pop, if_pos h]
        intro a ha
        exact List.mem_cons_of_mem _ ha
      · simp only [Dict.pop, if_neg h]
        intro a ha
        simp only [Dict.keys, List.map_cons, List.mem_cons] at ha ⊢
        rcases ha with hh | hh
        · exact Or.inl hh
        · exact Or.inr (ih hh)

/-! ### The generated `Funnel` trace class (`plotly/graph_objs/_funnel.py`) -/

/-- The `_valid_props` class attribute of `Funnel`: the fixed finite set of
valid property names, written in the source as a set literal. -/
def funnelValidProps : List String := [
  "alignmentgroup", "cliponaxis", "connector", "constraintext",
  "customdata", "customdatasrc", "dx", "dy", "hoverinfo", "hoverinfosrc",
  "hoverlabel", "hovertemplate", "hovertemplatesrc", "hovertext",
  "hovertextsrc", "ids", "idssrc", "insidetextanchor", "insidetextfont",
  "legend", "legendgroup", "legendgrouptitle", "legendrank", "legendwidth",
  "marker", "meta", "metasrc", "name", "offset", "offsetgroup", "opacity",
  "orientation", "outsidetextfont", "selectedpoints", "showlegend",
  "stream", "text", "textangle", "textfont", "textinfo", "textposition",
  "textpositionsrc", "textsrc", "texttemplate", "texttemplatesrc", "type",
  "uid", "uirevision", "visible", "width", "x", "x0", "xaxis",
  "xhoverformat", "xperiod", "xperiod0", "xperiodalignment", "xsrc", "y",
  "y0", "yaxis", "yhoverformat", "yperiod", "yperiod0", "yperiodalignment",
  "ysrc"
]

/-- Membership in `_valid_props`: a name outside the set is not a valid
`Funnel` property. -/
def isValidFunnelProp (p : String) : Bool :=
  funnelValidProps.contains p

/-- The order in which the `Funnel` constructor populate loop pops and
stores properties: every valid property except the read-only literal
`type`, in source order. -/
def funnelPropOrder : List String := [
  "alignmentgroup", "cliponaxis", "connector", "constraintext",
  "customdata", "customdatasrc", "dx", "dy", "hoverinfo", "hoverinfosrc",
  "hoverlabel", "hovertemplate", "hovertemplatesrc", "hovertext",
  "hovertextsrc", "ids", "idssrc", "insidetextanchor", "insidetextfont",
  "legend", "legendgroup", "legendgrouptitle", "legendrank", "legendwidth",
  "marker", "meta", "metasrc", "name", "offset", "offsetgroup", "opacity",
  "orientation", "outsidetextfont", "selectedpoints", "showlegend",
  "stream", "text", "textangle", "textfont", "textinfo", "textposition",
  "textpositionsrc", "textsrc", "texttemplate", "texttemplatesrc", "uid",
  "uirevision", "visible", "width", "x", "x0", "xaxis", "xhoverformat",
  "xperiod", "xperiod0", "xperiodalignment", "xsrc", "y", "y0", "yaxis",
  "yhoverformat", "yperiod", "yperiod0", "yperiodalignment", "ysrc"
]

/-- A `Funnel` trace object, reduced to its internal property store
`self._props` (a dict from property names to values). -/
structure Funnel where
  props : Dict
deriving DecidableEq, Repr

namespace Funnel

/-- Modelled from the spec: `BasePlotlyType.__getitem__` (the dict-like
store behind the generated accessors) is not among the analysed sources;
per the spec the getters map onto an internal dict-like store, so
`self[p]` is the value stored under key `p` (absent keys read as unset). -/
def getItem (f : Funnel) (p : String) : Option PyVal :=
  f.props.lookup p

/-- Modelled from the spec: `BasePlotlyType.__setitem__` writes its
argument to the key of the internal dict-like store. -/
def setItem (f : Funnel) (p : String) (v : PyVal) : Funnel :=
  ⟨f.props.set p v⟩

/-- The generated `orientation` property getter: `return self["orientation"]`. -/
def orientation (f : Funnel) : Option PyVal :=
  f.getItem "orientation"

/-- The generated `orientation` property setter:
`self["orientation"] = val`. -/
def setOrientation (f : Funnel) (v : PyVal) : Funnel :=
  f.setItem "orientation" v

/-- The `to_plotly_json` representation of a `Funnel`, reduced to its
property store (a deep copy of `self._props`). -/
def toPlotlyJson (f : Funnel) : Dict :=
  f.props

end Funnel

/-! ### Enumerated per-field validators -/

/-- An `EnumeratedValidator` configuration: the declarative data the
generated validator modules pass to `super().__init__`. -/
structure EnumeratedValidator where
  plotlyName : String
  parentName : String
  editType : String
  values : List String
deriving DecidableEq, Repr

/-- The default configuration built by
`plotly/validators/layout/shape/label/font/_weight.py` (no keyword
overrides). -/
def weightValidator : EnumeratedValidator :=
  { plotlyName := "weight"
    parentName := "layout.shape.label.font"
    editType := "calc+arraydraw"
    values := ["normal", "bold"] }

/-- The default configuration built by
`plotly/validators/scattermap/legendgrouptitle/font/_textcase.py` (no
keyword overrides). -/
def textcaseValidator : EnumeratedValidator :=
  { plotlyName := "textcase"
    parentName := "scattermap.legendgrouptitle.font"
    editType := "style"
    values := ["normal", "word caps", "upper", "lower"] }

/-- Modelled from the spec: the enum check of
`_plotly_utils.basevalidators.EnumeratedValidator` is not among the
analysed sources; per the spec it is a per-field enum check, so a value
passes exactly when it is one of the configured values. -/
def EnumeratedValidator.permits (val : EnumeratedValidator) (v : String) : Bool :=
  val.values.contains v

/-! ### The `Funnel` constructor (`Funnel.__init__`) -/

/-- Python truthiness of the embedded values, as used for flags such as
`skip_invalid`. -/
def PyVal.isTruthy : PyVal → Bool
  | .none => false
  | .bool b => b
  | .int n => n ≠ 0
  | .str s => s ≠ ""

/-- The possible first positional arguments of the `Funnel` constructor:
`None`, a dict, a `Funnel` instance, or anything else. -/
inductive FunnelArg where
  | pyNone
  | pyDict (d : Dict)
  | pyFunnel (f : Funnel)
  | other (v : PyVal)
deriving DecidableEq, Repr

/-- The `ValueError` message raised by the constructor argument check. -/
def funnelArgError : String :=
  "The first argument to the plotly.graph_objs.Funnel constructor must be a dict or an instance of plotly.graph_objs.Funnel"

/-- The `ValueError` raised when a remaining keyword tries to write the
read-only literal `type`. -/
def funnelReadOnlyError : String :=
  "The type property of funnel is read-only"

/-- The `ValueError` raised for an invalid leftover property name. -/
def funnelInvalidPropError (k : String) : String :=
  "Invalid property specified for object of type plotly.graph_objs.Funnel: " ++ k

/-- The argument-validation block of `Funnel.__init__`: `None` becomes an
empty dict, a `Funnel` instance contributes its plotly-JSON
representation, a dict is shallow-copied (the returned dict is a fresh
object holding the same entries), anything else raises `ValueError`. -/
def funnelValidateArg : FunnelArg → Except String Dict
  | .pyNone => .ok []
  | .pyFunnel f => .ok f.toPlotlyJson
  | .pyDict d => .ok d
  | .other _ => .error funnelArgError

/-- One iteration of the populate loop of `Funnel.__init__`:
`_v = arg.pop(p, None); _v = kwval if kwval is not None else _v;
if _v is not None: self[p] = _v`, threading the working dict and the
property store. Per-field value validation lives outside the analysed
sources and is modelled as accepting the value. -/
def funnelPopStep (kw : String → PyVal) (p : String) (st : Dict × Dict) : Dict × Dict :=
  if kw p ≠ PyVal.none then ((st.1.pop p).2, st.2.set p (kw p))
  else if (st.1.pop p).1 ≠ PyVal.none then ((st.1.pop p).2, st.2.set p (st.1.pop p).1)
  else ((st.1.pop p).2, st.2)

/-- The populate loop of `Funnel.__init__` over a list of property names. -/
def funnelPopulate (kw : String → PyVal) (ps : List String) (st : Dict × Dict) : Dict × Dict :=
  ps.foldl (fun st p => funnelPopStep kw p st) st

/-- Modelled from the spec: `BasePlotlyType._process_kwargs` (called on
`dict(arg, **kwargs)` at the end of `Funnel.__init__`) is not among the
analysed sources. Per the spec the library has no failure model beyond
input validation raising errors: each leftover key that is a valid
property is stored; writing the read-only literal `type` raises
`ValueError`; an invalid key raises `ValueError` unless validation is
disabled (raw store) or `skip_invalid` is set (the entry is dropped, and
`skip_invalid` also swallows the read-only write). -/
def processKwargs (validateFlag skipInvalid : Bool) : Dict → Dict → Except String Dict
  | props, [] => .ok props
  | props, (k, v) :: rest =>
      if isValidFunnelProp k then
        if k = "type" then
          if skipInvalid then processKwargs validateFlag skipInvalid props rest
          else .error funnelReadOnlyError
        else processKwargs validateFlag skipInvalid (props.set k v) rest
      else if !validateFlag then
        processKwargs validateFlag skipInvalid (props.set k v) rest
      else if skipInvalid then processKwargs validateFlag skipInvalid props rest
      else .error (funnelInvalidPropError k)

/-- Embedding of Python `dict(a, **b)`: the entries of `a`, updated and
extended by those of `b`. -/
def Dict.merge (a b : Dict) : Dict :=
  b.foldl (fun d kv => d.set kv.1 kv.2) a

/-- Embedding of `Funnel.__init__`. `arg` is the first positional
argument, `kwargs` the extra keyword arguments (`**kwargs`, including the
internal hooks `_parent`, `skip_invalid` and `_validate`), and `kw` maps
each named property parameter to its value (`PyVal.none` when not
supplied, matching the Python defaults). The steps, in source order:
the `_parent` early return (the own store stays empty and nothing below
runs); the argument validation; the `skip_invalid` and `_validate` pops;
the populate loop; the read-only literal `self._props["type"] = "funnel"`
followed by `arg.pop("type", None)`; and `_process_kwargs` on
`dict(arg, **kwargs)`. A raised `ValueError` is the `Except.error` case. -/
def funnelInit (arg : FunnelArg) (kwargs : Dict) (kw : String → PyVal) :
    Except String Funnel :=
  if (kwargs.lookup "_parent").isSome then
    .ok ⟨[]⟩
  else
    match funnelValidateArg arg with
    | .error e => .error e
    | .ok d =>
        let skipInvalid := (kwargs.pop "skip_invalid").1.isTruthy
        let kwargs1 := ((kwargs.pop "skip_invalid").2.pop "_validate").2
        let validateFlag :=
          match (kwargs.pop "skip_invalid").2.lookup "_validate" with
          | Option.none => true
          | some v => v.isTruthy
        let st := funnelPopulate kw funnelPropOrder (d, ([] : Dict))
        let props1 := st.2.set "type" (PyVal.str "funnel")
        let arg1 := (st.1.pop "type").2
        (processKwargs validateFlag skipInvalid props1 (Dict.merge arg1 kwargs1)).map
          (fun ps => ⟨ps⟩)

/-- The constructor called on a dict argument, together with the state of
the caller-owned dict object after construction. The source rebinds
`arg = _copy.copy(arg)` before popping, so every pop acts on the fresh
copy and the caller-owned object receives no mutation. -/
def funnelInitWithCallerDict (d : Dict) (kwargs : Dict) (kw : String → PyVal) :
    Except String Funnel × Dict :=
  (funnelInit (FunnelArg.pyDict d) kwargs kw, d)

/-- The final state of the working copy of a dict argument: what the pops
of the constructor leave of the dict object they act on. -/
def funnelArgAfterPops (d : Dict) (kw : String → PyVal) : Dict :=
  ((funnelPopulate kw funnelPropOrder (d, ([] : Dict))).1.pop "type").2

/-! ### Lemmas about the populate loop and kwargs processing -/

/-- The value the populate loop stores for property `p`: the named keyword
argument when it is not `None`, else the value popped from the arg dict. -/
def popValue (kw : String → PyVal) (d : Dict) (p : String) : PyVal :=
  if kw p ≠ PyVal.none then kw p else (d.pop p).1

/-- Popping every key of a list in order. -/
def Dict.popAll (d : Dict) (ps : List String) : Dict :=
  ps.foldl (fun d p => (d.pop p).2) d

theorem funnelPopStep_fst (kw : String → PyVal) (p : String) (st : Dict × Dict) :
    (funnelPopStep kw p st).1 = (st.1.pop p).2 := by
  unfold funnelPopStep
  split_ifs <;> rfl

theorem funnelPopStep_lookup_self (kw : String → PyVal) (p : String) (st : Dict × Dict) :
    (funnelPopStep kw p st).2.lookup p =
      (if popValue kw st.1 p ≠ PyVal.none then some (popValue kw st.1 p)
       else st.2.lookup p) := by
  unfold funnelPopStep popValue
  split_ifs with h1 h2 <;>
    simp_all [Dict.lookup_set_self]

theorem funnelPopStep_lookup_other (kw : String → PyVal) (p q : String) (st : Dict × Dict)
    (h : q ≠ p) :
    (funnelPopStep kw q st).2.lookup p = st.2.lookup p := by
  unfold funnelPopStep
  split_ifs <;> simp [Dict.lookup_set_other _ _ _ _ h]

theorem funnelPopulate_fst (kw : String → PyVal) (ps : List String) (st : Dict × Dict) :
    (funnelPopulate kw ps st).1 = st.1.popAll ps := by
  induction ps generalizing st with
  | nil => rfl
  | cons q rest ih =>
      show (funnelPopulate kw rest (funnelPopStep kw q st)).1 = _
      rw [ih, funnelPopStep_fst]
      rfl

theorem funnelPopulate_lookup_not_mem (kw : String → PyVal) (ps : List String)
    (st : Dict × Dict) (p : String) (h : p ∉ ps) :
    (funnelPopulate kw ps st).2.lookup p = st.2.lookup p := by
  induction ps generalizing st with
  | nil => rfl
  | cons q rest ih =>
      have hq : q ≠ p := fun he => h (by rw [← he]; exact List.mem_cons_self q rest)
      have hrest : p ∉ rest := fun hm => h (List.mem_cons_of_mem _ hm)
      show (funnelPopulate kw rest (funnelPopStep kw q st)).2.lookup p = _
      rw [ih _ hrest, funnelPopStep_lookup_other _ _ _ _ hq]

theorem popValue_pop_other (kw : String → PyVal) (d : Dict) (p q : String) (h : q ≠ p) :
    popValue kw (d.pop q).2 p = popValue kw d p := by
  unfold popValue
  rw [Dict.pop_fst_eq_lookup, Dict.pop_fst_eq_lookup, Dict.lookup_pop_other _ _ _ h]

theorem funnelPopulate_lookup_mem (kw : String → PyVal) (ps : List String)
    (st : Dict × Dict) (p : String) (hnd : ps.Nodup) (hm : p ∈ ps) :
    (funnelPopulate kw ps st).2.lookup p =
      (if popValue kw st.1 p ≠ PyVal.none then some (popValue kw st.1 p)
       else st.2.lookup p) := by
  induction ps generalizing st with
  | nil => cases hm
  | cons q rest ih =>
      rcases List.mem_cons.mp hm with he | hm'
      · subst he
        have hrest : p ∉ rest := (List.nodup_cons.mp hnd).1
        show (funnelPopulate kw rest (funnelPopStep kw p st)).2.lookup p = _
        rw [funnelPopulate_lookup_not_mem _ _ _ _ hrest, funnelPopStep_lookup_self]
      · have hq : q ≠ p := by
          rintro rfl
          exact (List.nodup_cons.mp hnd).1 hm'
        show (funnelPopulate kw rest (funnelPopStep kw q st)).2.lookup p = _
        rw [ih _ (List.nodup_cons.mp hnd).2 hm', funnelPopStep_fst,
          funnelPopStep_lookup_other _ _ _ _ hq, popValue_pop_other _ _ _ _ hq]

theorem funnelPropOrder_nodup : funnelPropOrder.Nodup := by
  decide

theorem type_not_mem_propOrder : "type" ∉ funnelPropOrder := by
  decide

theorem validProps_perm : funnelValidProps.Perm ("type" :: funnelPropOrder) := by
  decide

theorem mem_validProps_iff (k : String) :
    k ∈ funnelValidProps ↔ k = "type" ∨ k ∈ funnelPropOrder := by
  rw [validProps_perm.mem_iff, List.mem_cons]

theorem isValidFunnelProp_iff (k : String) :
    isValidFunnelProp k = true ↔ k ∈ funnelValidProps := by
  exact List.elem_iff

/-- Processing leftover kwargs never touches the stored `type` literal:
on success the lookup of `"type"` is unchanged. -/
theorem processKwargs_lookup_type (vf si : Bool) (props ext : Dict) (res : Dict)
    (h : processKwargs vf si props ext = .ok res) :
    res.lookup "type" = props.lookup "type" := by
  induction ext generalizing props with
  | nil =>
      simp only [processKwargs] at h
      cases h
      rfl
  | cons kv rest ih =>
      obtain ⟨k, v⟩ := kv
      simp only [processKwargs] at h
      by_cases hval : isValidFunnelProp k
      · by_cases hty : k = "type"
        · subst hty
          simp only [hval, if_pos rfl, if_true] at h
          cases si with
          | true => exact ih _ (by simpa using h)
          | false => simp at h
        · simp only [hval, if_true, if_neg hty] at h
          rw [ih _ h, Dict.lookup_set_other _ _ _ _ hty]
      · have hty : k ≠ "type" := by
          rintro rfl
          exact hval (by rw [isValidFunnelProp_iff, mem_validProps_iff]; exact Or.inl rfl)
        simp only [hval, if_false, Bool.false_eq_true] at h
        cases vf with
        | false =>
            simp only [Bool.not_false, if_true] at h
            rw [ih _ h, Dict.lookup_set_other _ _ _ _ hty]
        | true =>
            simp only [Bool.not_true, Bool.false_eq_true, if_false] at h
            cases si with
            | true => exact ih _ (by simpa using h)
            | false => simp at h

/-- Processing an invalid leading key with validation on and
`skip_invalid` off raises. -/
theorem processKwargs_error_of_invalid_head (props rest : Dict) (k : String) (v : PyVal)
    (h : isValidFunnelProp k = false) :
    processKwargs true false props ((k, v) :: rest) = .error (funnelInvalidPropError k) := by
  simp [processKwargs, h]

theorem dict_merge_nil (a : Dict) : Dict.merge a [] = a := rfl

/-- `pop` returns either the dict itself or the dict with one entry
removed, so the remaining entries form a sublist. -/
theorem Dict.pop_snd_sublist (d : Dict) (k : String) :
    List.Sublist (d.pop k).2 d := by
  induction d with
  | nil => simp [Dict.pop]
  | cons kv rest ih =>
      obtain ⟨k', v⟩ := kv
      by_cases h : k' = k
      · simp only [Dict.pop, if_pos h]
        exact List.sublist_cons_self _ _
      · simp only [Dict.pop, if_neg h]
        exact List.Sublist.cons₂ _ ih

theorem Dict.keys_pop_sublist (d : Dict) (k : String) :
    List.Sublist (d.pop k).2.keys d.keys :=
  (Dict.pop_snd_sublist d k).map Prod.fst

theorem Dict.keys_pop_nodup (d : Dict) (k : String) (h : d.keys.Nodup) :
    (d.pop k).2.keys.Nodup :=
  (Dict.keys_pop_sublist d k).nodup h

/-- With unique keys, the popped key is gone from the remainder. -/
theorem Dict.not_mem_keys_pop (d : Dict) (k : String) (h : d.keys.Nodup) :
    k ∉ (d.pop k).2.keys := by
  induction d with
  | nil => simp [Dict.pop, Dict.keys]
  | cons kv rest ih =>
      obtain ⟨k', v⟩ := kv
      have hnd : (Dict.keys rest).Nodup := (List.nodup_cons.mp h).2
      by_cases hk : k' = k
      · subst hk
        simp only [Dict.pop, if_pos rfl]
        exact fun hm => (List.nodup_cons.mp h).1 hm
      · simp only [Dict.pop, if_neg hk]
        intro hm
        rcases List.mem_cons.mp hm with he | hm'
        · exact hk he.symm
        · exact ih hnd hm'

/-- Membership in the keys after popping a whole list: the key was there
before and is not among the popped ones. -/
theorem Dict.mem_keys_popAll (d : Dict) (ps : List String) (k : String)
    (hnd : d.keys.Nodup) (h : k ∈ (d.popAll ps).keys) :
    k ∈ d.keys ∧ k ∉ ps := by
  induction ps generalizing d with
  | nil => exact ⟨h, by simp⟩
  | cons p rest ih =>
      have hstep : Dict.popAll d (p :: rest) = Dict.popAll (d.pop p).2 rest := rfl
      rw [hstep] at h
      obtain ⟨h1, h2⟩ := ih _ (Dict.keys_pop_nodup d p hnd) h
      have hne : k ≠ p := by
        rintro rfl
        exact Dict.not_mem_keys_pop d k hnd h1
      exact ⟨(Dict.keys_pop_sublist d p).subset h1, by
        intro hm
        rcases List.mem_cons.mp hm with he | hm'
        · exact hne he
        · exact h2 hm'⟩

theorem Dict.keys_popAll_nodup (d : Dict) (ps : List String) (hnd : d.keys.Nodup) :
    (d.popAll ps).keys.Nodup := by
  induction ps generalizing d with
  | nil => exact hnd
  | cons p rest ih => exact ih _ (Dict.keys_pop_nodup d p hnd)

/-- With no extra kwargs, the constructor on a dict reduces to populate,
type literal, and kwargs processing of the leftover arg entries. -/
theorem funnelInit_dict_nil_kwargs (d : Dict) (kw : String → PyVal) :
    funnelInit (FunnelArg.pyDict d) [] kw =
      (processKwargs true false
        ((funnelPopulate kw funnelPropOrder (d, ([] : Dict))).2.set "type"
          (PyVal.str "funnel"))
        (((funnelPopulate kw funnelPropOrder (d, ([] : Dict))).1.pop "type").2)).map
        (fun ps => ⟨ps⟩) := rfl

/-- When the arg dict only holds valid property names, nothing is left of
the working copy after the populate pops and the `type` pop. -/
theorem arg_remaining_nil (d : Dict) (kw : String → PyVal)
    (hnd : d.keys.Nodup) (hsub : ∀ k ∈ d.keys, k ∈ funnelValidProps) :
    ((funnelPopulate kw funnelPropOrder (d, ([] : Dict))).1.pop "type").2 = [] := by
  rw [funnelPopulate_fst]
  have hrnd : (Dict.popAll d funnelPropOrder).keys.Nodup :=
    Dict.keys_popAll_nodup d funnelPropOrder hnd
  have hkeys : ∀ k, k ∉ ((Dict.popAll d funnelPropOrder).pop "type").2.keys := by
    intro k hk
    have hne : k ≠ "type" := by
      rintro rfl
      exact Dict.not_mem_keys_pop _ _ hrnd hk
    have hmem : k ∈ (Dict.popAll d funnelPropOrder).keys :=
      (Dict.keys_pop_sublist _ _).subset hk
    obtain ⟨hd, hni⟩ := Dict.mem_keys_popAll d funnelPropOrder k hnd hmem
    rcases (mem_validProps_iff k).mp (hsub k hd) with he | hm
    · exact hne he
    · exact hni hm
  have : ((Dict.popAll d funnelPropOrder).pop "type").2.keys = [] :=
    List.eq_nil_iff_forall_not_mem.mpr hkeys
  unfold Dict.keys at this
  exact List.map_eq_nil_iff.mp this

/-- On a successful dict construction (no extra kwargs, unique keys), the
working copy was emptied: every arg key was a valid property. -/
theorem funnelInit_dict_ok_remaining_nil (d : Dict) (kw : String → PyVal) (f : Funnel)
    (hnd : d.keys.Nodup)
    (h : funnelInit (FunnelArg.pyDict d) [] kw = .ok f) :
    ((funnelPopulate kw funnelPropOrder (d, ([] : Dict))).1.pop "type").2 = [] := by
  rw [funnelInit_dict_nil_kwargs] at h
  set rem := ((funnelPopulate kw funnelPropOrder (d, ([] : Dict))).1.pop "type").2 with hrem
  cases hr : rem with
  | nil => rfl
  | cons kv rest =>
      obtain ⟨k, v⟩ := kv
      have hk : k ∈ rem.keys := by
        rw [hr]
        exact List.mem_cons_self _ _
      have hrnd : (Dict.popAll d funnelPropOrder).keys.Nodup :=
        Dict.keys_popAll_nodup d funnelPropOrder hnd
      have hne : k ≠ "type" := by
        rintro rfl
        rw [hrem, funnelPopulate_fst] at hk
        exact Dict.not_mem_keys_pop _ _ hrnd hk
      have hmem : k ∈ (Dict.popAll d funnelPropOrder).keys := by
        rw [hrem, funnelPopulate_fst] at hk
        exact (Dict.keys_pop_sublist _ _).subset hk
      obtain ⟨hd, hni⟩ := Dict.mem_keys_popAll d funnelPropOrder k hnd hmem
      have hinv : isValidFunnelProp k = false := by
        rw [Bool.eq_false_iff]
        intro hvv
        rcases (mem_validProps_iff k).mp ((isValidFunnelProp_iff k).mp hvv) with he | hm
        · exact hne he
        · exact hni hm
      rw [hr, processKwargs_error_of_invalid_head _ _ _ _ hinv] at h
      simp [Except.map] at h

theorem exceptMap_ok {α β ε : Type} (g : α → β) (e : Except ε α) (y : β)
    (h : e.map g = .ok y) : ∃ x, e = .ok x ∧ y = g x := by
  cases e with
  | error a => simp [Except.map] at h
  | ok x =>
      refine ⟨x, rfl, ?_⟩
      simpa [Except.map] using h.symm

/-! ### Claim theorems about the `Funnel` class -/

/-- C9: in the `Funnel` constructor, explicit keyword arguments take
precedence over entries of the arg dict: for every property, a non-`None`
named keyword argument is stored; otherwise the value popped from the arg
dict is stored; and when both are `None` the property is left unset. -/
theorem funnel_init_kwarg_precedence
    (d : Dict) (kw : String → PyVal) (p : String) (f : Funnel)
    (hp : p ∈ funnelPropOrder) (hnd : d.keys.Nodup)
    (h : funnelInit (FunnelArg.pyDict d) [] kw = .ok f) :
    f.props.lookup p =
      (if kw p ≠ PyVal.none then some (kw p)
       else if (d.lookup p).getD PyVal.none ≠ PyVal.none then
         some ((d.lookup p).getD PyVal.none)
       else Option.none) := by
  have hrem := funnelInit_dict_ok_remaining_nil d kw f hnd h
  rw [funnelInit_dict_nil_kwargs, hrem] at h
  obtain ⟨ps, hpk, hf⟩ := exceptMap_ok _ _ _ h
  simp only [processKwargs] at hpk
  cases hpk
  have hne : p ≠ "type" := by
    rintro rfl
    exact type_not_mem_propOrder hp
  rw [hf]
  show Dict.lookup (Dict.set _ "type" (PyVal.str "funnel")) p = _
  rw [Dict.lookup_set_other _ _ _ _ (Ne.symm hne),
    funnelPopulate_lookup_mem kw funnelPropOrder (d, ([] : Dict)) p funnelPropOrder_nodup hp]
  unfold popValue
  rw [Dict.pop_fst_eq_lookup]
  split_ifs with h1 h2 <;> simp_all [Dict.lookup]

/-- C8 counterexample: the claim quantifies over all keyword arguments,
but with the internal `_parent` hook among them the constructor returns
before the read-only literal block runs, so the produced object stores no
`type` at all — its own property store is empty, not `"funnel"`. -/
theorem funnel_type_literal_invariant_cex :
    funnelInit FunnelArg.pyNone [("_parent", PyVal.int 0)] (fun _ => PyVal.none) =
      .ok ⟨[]⟩ ∧
    Dict.lookup [] "type" ≠ some (PyVal.str "funnel") :=
  ⟨rfl, by decide⟩

/-- C8 (amended): every `Funnel` produced by the constructor when the
keyword arguments do not carry the internal `_parent` hook (which returns
early, before the literal block) stores the literal string `"funnel"`
under `"type"`, regardless of the argument, the remaining keyword
arguments, or any user-supplied `type` entry: a `type` key in the arg
dict is popped and discarded after the literal is written, and a leftover
`type` keyword is rejected, so no such input makes the stored type differ
from `"funnel"`. -/
theorem funnel_type_literal_invariant
    (arg : FunnelArg) (kwargs : Dict) (kw : String → PyVal) (f : Funnel)
    (hpar : kwargs.lookup "_parent" = Option.none)
    (h : funnelInit arg kwargs kw = .ok f) :
    f.props.lookup "type" = some (PyVal.str "funnel") := by
  unfold funnelInit at h
  rw [hpar] at h
  simp only [Option.isSome_none, Bool.false_eq_true, if_false] at h
  cases harg : funnelValidateArg arg with
  | error e => rw [harg] at h; exact absurd h (by simp)
  | ok d =>
      rw [harg] at h
      obtain ⟨ps, hpk, hf⟩ := exceptMap_ok _ _ _ h
      rw [hf]
      show Dict.lookup ps "type" = _
      rw [processKwargs_lookup_type _ _ _ _ _ hpk]
      exact Dict.lookup_set_self _ _ _

/-- C10: when the constructor is given a dict, the caller-owned dict
object is unchanged after construction: the source rebinds
`arg = _copy.copy(arg)` before popping, so every key/value pair present
before the call is still present afterwards. -/
theorem funnel_init_caller_dict_frame
    (d kwargs : Dict) (kw : String → PyVal) (k : String) (v : PyVal)
    (h : (k, v) ∈ d) :
    (k, v) ∈ (funnelInitWithCallerDict d kwargs kw).2 := by
  simpa [funnelInitWithCallerDict] using h

/-- C4 counterexample: with the internal `_parent` hook among the keyword
arguments, the constructor returns before validating, so a first argument
that is neither `None`, nor a dict, nor a `Funnel` raises no `ValueError`,
contradicting the claimed "if and only if". -/
theorem funnel_init_arg_dispatch_cex :
    funnelInit (FunnelArg.other (PyVal.int 42)) [("_parent", PyVal.int 0)]
      (fun _ => PyVal.none) = .ok ⟨[]⟩ ∧
    funnelValidateArg (FunnelArg.other (PyVal.int 42)) = .error funnelArgError := by
  exact ⟨rfl, rfl⟩

/-- C4 (amended): when the keyword arguments do not carry the internal
`_parent` hook, the constructor raises `ValueError` whenever its first
positional argument is neither `None`, nor a dict, nor a `Funnel`
instance; `None` proceeds exactly as an empty property dict, a `Funnel`
instance exactly as its plotly-JSON representation, and a dict whose keys
are all valid properties proceeds without raising. -/
theorem funnel_init_arg_dispatch
    (v : PyVal) (kwargs : Dict) (kw : String → PyVal) (d : Dict) (g : Funnel)
    (hpar : kwargs.lookup "_parent" = Option.none)
    (hnd : d.keys.Nodup) (hsub : ∀ k ∈ d.keys, k ∈ funnelValidProps) :
    funnelInit (FunnelArg.other v) kwargs kw = .error funnelArgError ∧
    funnelInit FunnelArg.pyNone kwargs kw = funnelInit (FunnelArg.pyDict []) kwargs kw ∧
    funnelInit (FunnelArg.pyFunnel g) kwargs kw =
      funnelInit (FunnelArg.pyDict g.toPlotlyJson) kwargs kw ∧
    ∃ f, funnelInit (FunnelArg.pyDict d) [] kw = .ok f := by
  refine ⟨?_, rfl, rfl, ?_⟩
  · unfold funnelInit
    rw [hpar]
    rfl
  · rw [funnelInit_dict_nil_kwargs, arg_remaining_nil d kw hnd hsub]
    exact ⟨_, rfl⟩

/-- C4 witness: the amended dispatch behaviour at concrete inputs. -/
theorem funnel_init_arg_dispatch_witness :
    ((Dict.lookup [] "_parent" = Option.none ∧
      (Dict.keys [("x", PyVal.int 1)]).Nodup ∧
      ∀ k ∈ Dict.keys [("x", PyVal.int 1)], k ∈ funnelValidProps) ∧
     (funnelInit (FunnelArg.other (PyVal.int 7)) [] (fun _ => PyVal.none) =
        .error funnelArgError ∧
      funnelInit FunnelArg.pyNone [] (fun _ => PyVal.none) =
        funnelInit (FunnelArg.pyDict []) [] (fun _ => PyVal.none) ∧
      funnelInit (FunnelArg.pyFunnel ⟨[]⟩) [] (fun _ => PyVal.none) =
        funnelInit (FunnelArg.pyDict (Funnel.toPlotlyJson ⟨[]⟩)) [] (fun _ => PyVal.none) ∧
      ∃ f, funnelInit (FunnelArg.pyDict [("x", PyVal.int 1)]) [] (fun _ => PyVal.none) =
        .ok f)) :=
  ⟨⟨by decide, by decide, by decide⟩,
   funnel_init_arg_dispatch (PyVal.int 7) [] (fun _ => PyVal.none)
     [("x", PyVal.int 1)] ⟨[]⟩ (by decide) (by decide) (by decide)⟩

/-- C5: for a valid property name, the generated getter reads exactly the
value stored under that key of the internal dict-like store and the
setter writes its argument to that key, so reading after setting returns
what the store holds; instantiated at the generated `orientation`
accessor pair. -/
theorem funnel_prop_accessor_roundtrip
    (f : Funnel) (p : String) (v : PyVal) (_hp : p ∈ funnelValidProps) :
    (f.setItem p v).getItem p = some v ∧
    f.getItem p = f.props.lookup p ∧
    f.orientation = f.getItem "orientation" ∧
    (f.setOrientation v).orientation = some v := by
  refine ⟨?_, rfl, rfl, ?_⟩ <;> exact Dict.lookup_set_self _ _ _

/-- C5 witness: the accessor round trip on a concrete `Funnel` at the
`orientation` property. -/
theorem funnel_prop_accessor_roundtrip_witness :
    ("orientation" ∈ funnelValidProps ∧
     ((Funnel.setItem ⟨[]⟩ "orientation" (PyVal.str "h")).getItem "orientation" =
        some (PyVal.str "h") ∧
      Funnel.getItem ⟨[]⟩ "orientation" = Dict.lookup [] "orientation" ∧
      Funnel.orientation ⟨[]⟩ = Funnel.getItem ⟨[]⟩ "orientation" ∧
      (Funnel.setOrientation ⟨[]⟩ (PyVal.str "h")).orientation =
        some (PyVal.str "h"))) :=
  ⟨by decide,
   funnel_prop_accessor_roundtrip ⟨[]⟩ "orientation" (PyVal.str "h") (by decide)⟩

/-- C6: the enumerated validators are configured with exact closed value
sets: by default the layout.shape.label.font `weight` validator permits
exactly `normal` and `bold`, and the scattermap.legendgrouptitle.font
`textcase` validator permits exactly `normal`, `word caps`, `upper` and
`lower`; every other value fails the enum check. -/
theorem enumerated_validator_value_sets (v : String) :
    (weightValidator.permits v = true ↔ (v = "normal" ∨ v = "bold")) ∧
    (textcaseValidator.permits v = true ↔
      (v = "normal" ∨ v = "word caps" ∨ v = "upper" ∨ v = "lower")) := by
  constructor <;>
    simp [EnumeratedValidator.permits, weightValidator, textcaseValidator]

/-- C7: the `Funnel` trace type exposes the fixed finite `_valid_props`
set, containing `orientation`, `texttemplate`, `marker`, `x`, `y` and
`type` among others, and any name outside the set is not a valid
property. -/
theorem funnel_valid_props_membership :
    ("orientation" ∈ funnelValidProps ∧ "texttemplate" ∈ funnelValidProps ∧
     "marker" ∈ funnelValidProps ∧ "x" ∈ funnelValidProps ∧
     "y" ∈ funnelValidProps ∧ "type" ∈ funnelValidProps) ∧
    ∀ s, s ∉ funnelValidProps → isValidFunnelProp s = false := by
  refine ⟨by decide, ?_⟩
  intro s hs
  rw [Bool.eq_false_iff]
  intro hv
  exact hs ((isValidFunnelProp_iff s).mp hv)

/-- C7 witness: the membership facts together with the rejection of a
concrete name outside the set. -/
theorem funnel_valid_props_membership_witness :
    ("notaprop" ∉ funnelValidProps) ∧ isValidFunnelProp "notaprop" = false :=
  ⟨by decide, funnel_valid_props_membership.2 "notaprop" (by decide)⟩

/-- C8 witness: even an arg dict carrying `type: "bar"` yields a stored
type of `"funnel"`. -/
theorem funnel_type_literal_invariant_witness :
    (Dict.lookup [] "_parent" = Option.none ∧
     funnelInit (FunnelArg.pyDict [("type", PyVal.str "bar")]) []
       (fun _ => PyVal.none) = .ok ⟨[("type", PyVal.str "funnel")]⟩) ∧
    Dict.lookup [("type", PyVal.str "funnel")] "type" = some (PyVal.str "funnel") :=
  ⟨⟨by decide, by rfl⟩,
   funnel_type_literal_invariant (FunnelArg.pyDict [("type", PyVal.str "bar")]) []
     (fun _ => PyVal.none) ⟨[("type", PyVal.str "funnel")]⟩ (by decide) (by rfl)⟩

/-- C9 witness: with the `orientation` keyword argument set and the arg
dict also carrying `orientation`, the keyword value wins. -/
theorem funnel_init_kwarg_precedence_witness :
    ("orientation" ∈ funnelPropOrder ∧
     (Dict.keys [("orientation", PyVal.str "v")]).Nodup ∧
     funnelInit (FunnelArg.pyDict [("orientation", PyVal.str "v")]) []
       (fun p => if p = "orientation" then PyVal.str "h" else PyVal.none) =
       .ok ⟨[("orientation", PyVal.str "h"), ("type", PyVal.str "funnel")]⟩) ∧
    Dict.lookup [("orientation", PyVal.str "h"), ("type", PyVal.str "funnel")]
        "orientation" =
      (if (fun p => if p = "orientation" then PyVal.str "h" else PyVal.none)
            "orientation" ≠ PyVal.none then
         some ((fun p => if p = "orientation" then PyVal.str "h" else PyVal.none)
           "orientation")
       else if (Dict.lookup [("orientation", PyVal.str "v")] "orientation").getD
           PyVal.none ≠ PyVal.none then
         some ((Dict.lookup [("orientation", PyVal.str "v")] "orientation").getD
           PyVal.none)
       else Option.none) :=
  ⟨⟨by decide, by decide, by rfl⟩,
   funnel_init_kwarg_precedence [("orientation", PyVal.str "v")]
     (fun p => if p = "orientation" then PyVal.str "h" else PyVal.none)
     "orientation" ⟨[("orientation", PyVal.str "h"), ("type", PyVal.str "funnel")]⟩
     (by decide) (by decide) (by rfl)⟩

/-- C10 witness: a concrete key/value pair of the caller dict survives
construction. -/
theorem funnel_init_caller_dict_frame_witness :
    (("x", PyVal.int 5) ∈ ([("x", PyVal.int 5)] : Dict)) ∧
    ("x", PyVal.int 5) ∈
      (funnelInitWithCallerDict [("x", PyVal.int 5)] [] (fun _ => PyVal.none)).2 :=
  ⟨by decide,
   funnel_init_caller_dict_frame [("x", PyVal.int 5)] [] (fun _ => PyVal.none)
     "x" (PyVal.int 5) (by decide)⟩

/-! ### The plotting-express scatter layer

The implementation (`plotly/express/_core.py`) is not among the analysed
sources; only its test suite is. The definitions below are modelled from
the spec: a convenience layer that builds trace objects from tabular
data, grouping by categorical columns, assigning colors and symbols from
sequences, and building hovertemplates. -/

/-- Tabular input: named columns of values. -/
structure DataFrame where
  cols : List (String × List PyVal)
deriving DecidableEq, Repr

/-- Column lookup by name (first match). -/
def colLookup : List (String × List PyVal) → String → Option (List PyVal)
  | [], _ => Option.none
  | (k, col) :: rest, c => if k = c then some col else colLookup rest c

/-- The named column of a data frame, when present. -/
def DataFrame.getColumn (df : DataFrame) (c : String) : Option (List PyVal) :=
  colLookup df.cols c

/-- All named columns, when every one is present. -/
def getColumns (df : DataFrame) : List String → Option (List (List PyVal))
  | [] => some []
  | n :: rest =>
      match df.getColumn n, getColumns df rest with
      | some c, some cs => some (c :: cs)
      | _, _ => Option.none

/-- Modelled from the spec: the columns backing a trace customdata when
both `custom_data` and `hover_data` are given — the `custom_data` columns
first, then the hover columns not already among them, so a shared column
appears only once. -/
def customDataColumns (customData hoverData : List String) : List String :=
  customData ++ hoverData.filter (fun h => !customData.contains h)

/-- A percent reference of the charting template language, such as the
x-value or customdata-entry references of a hovertemplate. -/
def pctRef (s : String) : String :=
  "%\x7b" ++ s ++ "\x7d"

/-- The hovertemplate entry for one hover column: the column label
followed by a reference to its index in the deduplicated customdata. -/
def hoverEntry (cols : List String) (h : String) : String :=
  h ++ "=" ++ pctRef ("customdata[" ++ toString (cols.indexOf h) ++ "]")

/-- Modelled from the spec: the hovertemplate the scatter builder
generates — the x and y labels with their axis references, one entry per
hover column referring to its customdata index, and the trailing extra
tag. -/
def scatterHoverTemplate (xcol ycol : String) (hoverData customData : List String) :
    String :=
  String.intercalate "<br>"
      ([xcol ++ "=" ++ pctRef "x", ycol ++ "=" ++ pctRef "y"] ++
        hoverData.map (hoverEntry (customDataColumns customData hoverData))) ++
    "<extra></extra>"

/-- A scatter trace as the plotting-express layer builds it. The
customdata matrix is carried column-major: one list of values per
deduplicated customdata column, so its length is the matrix width. -/
structure Trace where
  type : String
  mode : String
  x : List PyVal
  y : List PyVal
  customdata : Option (List (List PyVal))
  hovertemplate : String
deriving DecidableEq, Repr

/-- Modelled from the spec: the ungrouped scatter builder — one trace of
type `scatter` with default mode `markers`, the x and y arrays taken from
the named columns, customdata from the deduplicated hover and custom
columns (absent when there are none), and the generated hovertemplate. -/
def pxScatter (df : DataFrame) (xcol ycol : String)
    (hoverData customData : List String) : Option (List Trace) :=
  match df.getColumn xcol, df.getColumn ycol,
      getColumns df (customDataColumns customData hoverData) with
  | some xs, some ys, some cdCols =>
      some [{ type := "scatter", mode := "markers", x := xs, y := ys,
              customdata :=
                if customDataColumns customData hoverData = [] then Option.none
                else some cdCols,
              hovertemplate := scatterHoverTemplate xcol ycol hoverData customData }]
  | _, _, _ => Option.none

/-- First-occurrence deduplication, keeping data order. -/
def firstDedupAux : List String → List String → List String
  | [], _ => []
  | a :: rest, seen =>
      if seen.contains a then firstDedupAux rest seen
      else a :: firstDedupAux rest (a :: seen)

/-- The distinct values of a list in order of first appearance. -/
def firstDedup (l : List String) : List String :=
  firstDedupAux l []

/-- Modelled from the spec: the combined category order of a grouping
column — the supplied `category_orders` entry first (kept even for
categories with no data rows), then the categories present in the data
but absent from the supplied order, appended in data order. -/
def fullOrder (supplied : List String) (uniques : List String) : List String :=
  supplied ++ uniques.filter (fun u => !supplied.contains u)

/-- A grouped scatter trace, reduced to its group categories and the
styling the sequences assign to them. -/
structure GTrace where
  symCat : String
  colorCat : String
  symbol : String
  color : String
deriving DecidableEq, Repr

/-- Modelled from the spec: one trace per distinct (symbol, color)
category pair present in the data; the symbol and color are the sequence
entries at the category position in the combined order (wrapping around
past the end of a sequence). -/
def makeTraces (pairs : List (String × String)) (symOrder colorOrder : List String)
    (symSeq colorSeq : List String) : List GTrace :=
  pairs.map fun pc =>
    { symCat := pc.1
      colorCat := pc.2
      symbol := symSeq.getD (symOrder.indexOf pc.1 % symSeq.length) ""
      color := colorSeq.getD (colorOrder.indexOf pc.2 % colorSeq.length) "" }

/-- Modelled from the spec: the grouped scatter builder over the distinct
(symbol, color) pairs present in the data (in data order), with
category orders supplied for both grouping columns. -/
def pxGroupedScatter (pairs : List (String × String))
    (symSupplied colorSupplied : List String)
    (symSeq colorSeq : List String) : List GTrace :=
  makeTraces pairs
    (fullOrder symSupplied (firstDedup (pairs.map Prod.fst)))
    (fullOrder colorSupplied (firstDedup (pairs.map Prod.snd)))
    symSeq colorSeq

theorem getColumns_length (df : DataFrame) (names : List String)
    (r : List (List PyVal)) (h : getColumns df names = some r) :
    r.length = names.length := by
  induction names generalizing r with
  | nil =>
      simp only [getColumns, Option.some.injEq] at h
      rw [← h]
      rfl
  | cons n rest ih =>
      simp only [getColumns] at h
      cases hc : DataFrame.getColumn df n with
      | none => rw [hc] at h; exact absurd h (by simp)
      | some c =>
          cases hcs : getColumns df rest with
          | none => rw [hc, hcs] at h; exact absurd h (by simp)
          | some cs =>
              rw [hc, hcs] at h
              simp only [Option.some.injEq] at h
              rw [← h]
              simp [ih cs hcs]

/-- The template model reproduces the exact hovertemplate the test suite
expects for the iris example with repeated hover and custom columns. -/
theorem scatterHoverTemplate_iris_example :
    scatterHoverTemplate "sepal_width" "sepal_length"
        ["petal_length", "petal_width", "species_id"] ["species_id", "species"] =
      "sepal_width=%{x}<br>sepal_length=%{y}<br>petal_length=%{customdata[2]}<br>petal_width=%{customdata[3]}<br>species_id=%{customdata[0]}<extra></extra>" := by
  rfl

/-! ### Claim theorems about the plotting-express layer -/

/-- C1: for tabular input holding the named x and y columns, the scatter
builder produces a figure whose first trace has type `scatter`, whose x
and y arrays are the named columns, and whose mode defaults to
`markers`. -/
theorem px_scatter_builds_scatter_trace
    (df : DataFrame) (xcol ycol : String) (xs ys : List PyVal)
    (hx : df.getColumn xcol = some xs) (hy : df.getColumn ycol = some ys) :
    ∃ tr, pxScatter df xcol ycol [] [] = some [tr] ∧
      tr.type = "scatter" ∧ tr.x = xs ∧ tr.y = ys ∧ tr.mode = "markers" := by
  unfold pxScatter
  rw [hx, hy]
  exact ⟨_, rfl, rfl, rfl, rfl, rfl⟩

/-- C1 witness: the scatter builder on a concrete two-column table. -/
theorem px_scatter_builds_scatter_trace_witness :
    (DataFrame.getColumn ⟨[("a", [PyVal.int 1]), ("b", [PyVal.int 2])]⟩ "a" =
        some [PyVal.int 1] ∧
     DataFrame.getColumn ⟨[("a", [PyVal.int 1]), ("b", [PyVal.int 2])]⟩ "b" =
        some [PyVal.int 2]) ∧
    ∃ tr, pxScatter ⟨[("a", [PyVal.int 1]), ("b", [PyVal.int 2])]⟩ "a" "b" [] [] =
        some [tr] ∧
      tr.type = "scatter" ∧ tr.x = [PyVal.int 1] ∧ tr.y = [PyVal.int 2] ∧
      tr.mode = "markers" :=
  ⟨⟨by rfl, by rfl⟩,
   px_scatter_builds_scatter_trace ⟨[("a", [PyVal.int 1]), ("b", [PyVal.int 2])]⟩
     "a" "b" [PyVal.int 1] [PyVal.int 2] (by rfl) (by rfl)⟩

/-- C2: a column shared between `hover_data` and `custom_data` appears
only once in the trace customdata (custom columns first), the customdata
width is the number of custom columns plus the non-shared hover columns,
and the hovertemplate refers to each hover column by its index in the
deduplicated customdata — a repeated column by its (early) custom-data
index. -/
theorem px_scatter_customdata_dedup
    (df : DataFrame) (xcol ycol h : String) (hoverData customData : List String)
    (tr : Trace) (hcn : customData.Nodup)
    (hps : pxScatter df xcol ycol hoverData customData = some [tr]) :
    (h ∈ customData → h ∈ hoverData →
      (customDataColumns customData hoverData).count h = 1) ∧
    (customDataColumns customData hoverData).length =
      customData.length +
        (hoverData.filter (fun c => !customData.contains c)).length ∧
    (∀ m, tr.customdata = some m →
      m.length = (customDataColumns customData hoverData).length) ∧
    (h ∈ customData →
      (customDataColumns customData hoverData).indexOf h = customData.indexOf h) ∧
    tr.hovertemplate = scatterHoverTemplate xcol ycol hoverData customData := by
  refine ⟨?_, ?_, ?_, ?_, ?_⟩
  · intro hc _
    rw [customDataColumns, List.count_append]
    have h1 : customData.count h = 1 := List.count_eq_one_of_mem hcn hc
    have h2 : (hoverData.filter (fun c => !customData.contains c)).count h = 0 := by
      rw [List.count_eq_zero]
      intro hm
      have := (List.mem_filter.mp hm).2
      simp only [Bool.not_eq_true', Bool.not_eq_true] at this
      exact absurd hc (by simpa [List.elem_iff] using this)
    omega
  · rw [customDataColumns, List.length_append]
  · intro m hm
    unfold pxScatter at hps
    cases hgx : DataFrame.getColumn df xcol with
    | none => rw [hgx] at hps; exact absurd hps (by simp)
    | some xs =>
        cases hgy : DataFrame.getColumn df ycol with
        | none => rw [hgx, hgy] at hps; exact absurd hps (by simp)
        | some ys =>
            cases hgc : getColumns df (customDataColumns customData hoverData) with
            | none => rw [hgx, hgy, hgc] at hps; exact absurd hps (by simp)
            | some cdCols =>
                rw [hgx, hgy, hgc] at hps
                simp only [Option.some.injEq, List.cons.injEq, and_true] at hps
                rw [← hps] at hm
                simp only at hm
                by_cases hemp : customDataColumns customData hoverData = []
                · rw [if_pos hemp] at hm
                  exact absurd hm (by simp)
                · rw [if_neg hemp] at hm
                  simp only [Option.some.injEq] at hm
                  rw [← hm]
                  exact getColumns_length df _ _ hgc
  · intro hc
    exact List.indexOf_append_of_mem hc
  · unfold pxScatter at hps
    cases hgx : DataFrame.getColumn df xcol with
    | none => rw [hgx] at hps; exact absurd hps (by simp)
    | some xs =>
        cases hgy : DataFrame.getColumn df ycol with
        | none => rw [hgx, hgy] at hps; exact absurd hps (by simp)
        | some ys =>
            cases hgc : getColumns df (customDataColumns customData hoverData) with
            | none => rw [hgx, hgy, hgc] at hps; exact absurd hps (by simp)
            | some cdCols =>
                rw [hgx, hgy, hgc] at hps
                simp only [Option.some.injEq, List.cons.injEq, and_true] at hps
                rw [← hps]

/-- A concrete one-row iris-like table for witnesses. -/
def irisDf : DataFrame :=
  ⟨[("sepal_width", [PyVal.int 1]), ("sepal_length", [PyVal.int 2]),
    ("petal_length", [PyVal.int 3]), ("petal_width", [PyVal.int 4]),
    ("species_id", [PyVal.int 5]), ("species", [PyVal.str "setosa"])]⟩

/-- The trace the modelled scatter builder produces on `irisDf` with
repeated hover and custom columns. -/
def irisTrace : Trace :=
  { type := "scatter", mode := "markers"
    x := [PyVal.int 1], y := [PyVal.int 2]
    customdata :=
      some [[PyVal.int 5], [PyVal.str "setosa"], [PyVal.int 3], [PyVal.int 4]]
    hovertemplate :=
      scatterHoverTemplate "sepal_width" "sepal_length"
        ["petal_length", "petal_width", "species_id"] ["species_id", "species"] }

/-- C2 witness: three hover columns and two custom columns with one
repeat yield a customdata of width four, the repeated column counted
once and referenced at its custom-data index 0. -/
theorem px_scatter_customdata_dedup_witness :
    ((["species_id", "species"] : List String).Nodup ∧
     pxScatter irisDf "sepal_width" "sepal_length"
       ["petal_length", "petal_width", "species_id"] ["species_id", "species"] =
       some [irisTrace]) ∧
    ((customDataColumns ["species_id", "species"]
        ["petal_length", "petal_width", "species_id"]).count "species_id" = 1 ∧
     (customDataColumns ["species_id", "species"]
        ["petal_length", "petal_width", "species_id"]).length =
       (["species_id", "species"] : List String).length +
         ((["petal_length", "petal_width", "species_id"] : List String).filter
           (fun c => !(["species_id", "species"] : List String).contains c)).length ∧
     (customDataColumns ["species_id", "species"]
        ["petal_length", "petal_width", "species_id"]).length = 4 ∧
     (customDataColumns ["species_id", "species"]
        ["petal_length", "petal_width", "species_id"]).indexOf "species_id" =
       (["species_id", "species"] : List String).indexOf "species_id" ∧
     irisTrace.hovertemplate =
       scatterHoverTemplate "sepal_width" "sepal_length"
         ["petal_length", "petal_width", "species_id"] ["species_id", "species"]) :=
  ⟨⟨by decide, by rfl⟩,
   (px_scatter_customdata_dedup irisDf "sepal_width" "sepal_length" "species_id"
       ["petal_length", "petal_width", "species_id"] ["species_id", "species"]
       irisTrace (by decide) (by rfl)).1 (by decide) (by decide),
   (px_scatter_customdata_dedup irisDf "sepal_width" "sepal_length" "species_id"
       ["petal_length", "petal_width", "species_id"] ["species_id", "species"]
       irisTrace (by decide) (by rfl)).2.1,
   by decide,
   (px_scatter_customdata_dedup irisDf "sepal_width" "sepal_length" "species_id"
       ["petal_length", "petal_width", "species_id"] ["species_id", "species"]
       irisTrace (by decide) (by rfl)).2.2.2.1 (by decide),
   (px_scatter_customdata_dedup irisDf "sepal_width" "sepal_length" "species_id"
       ["petal_length", "petal_width", "species_id"] ["species_id", "species"]
       irisTrace (by decide) (by rfl)).2.2.2.2⟩

/-! ### Category orderings -/

theorem firstDedupAux_not_mem_seen (l seen : List String) (a : String)
    (h : a ∈ firstDedupAux l seen) : a ∉ seen := by
  induction l generalizing seen with
  | nil => simp [firstDedupAux] at h
  | cons b rest ih =>
      simp only [firstDedupAux] at h
      by_cases hb : seen.contains b
      · rw [if_pos hb] at h
        exact ih seen h
      · rw [if_neg hb] at h
        rcases List.mem_cons.mp h with he | hm
        · subst he
          intro hs
          exact hb (List.elem_iff.mpr hs)
        · intro hs
          exact (ih (b :: seen) hm) (List.mem_cons_of_mem _ hs)

theorem firstDedupAux_nodup (l seen : List String) : (firstDedupAux l seen).Nodup := by
  induction l generalizing seen with
  | nil => simp [firstDedupAux]
  | cons b rest ih =>
      simp only [firstDedupAux]
      by_cases hb : seen.contains b
      · rw [if_pos hb]
        exact ih seen
      · rw [if_neg hb]
        refine List.nodup_cons.mpr ⟨?_, ih (b :: seen)⟩
        intro hm
        exact (firstDedupAux_not_mem_seen rest (b :: seen) b hm) (List.mem_cons_self _ _)

theorem firstDedup_nodup (l : List String) : (firstDedup l).Nodup :=
  firstDedupAux_nodup l []

theorem fullOrder_nodup (supplied uniques : List String)
    (hs : supplied.Nodup) (hu : uniques.Nodup) :
    (fullOrder supplied uniques).Nodup := by
  rw [fullOrder]
  refine List.Nodup.append hs (hu.filter _) ?_
  intro a ha hb
  have hf := (List.mem_filter.mp hb).2
  simp only [Bool.not_eq_true', Bool.not_eq_true] at hf
  exact absurd ha (by simpa [List.elem_iff] using hf)

/-- The distinct symbol categories of the grouped data, in data order. -/
def symCats (pairs : List (String × String)) : List String :=
  firstDedup (pairs.map Prod.fst)

/-- The distinct color categories of the grouped data, in data order. -/
def colorCats (pairs : List (String × String)) : List String :=
  firstDedup (pairs.map Prod.snd)

/-- C3: with categorical columns bound to symbol and color and supplied
category orders, the trace whose symbol (resp. color) category sits at
position i of the combined order receives the i-th symbol-sequence
(resp. color-sequence) entry; categories present in the data but absent
from a supplied order are appended after the listed ones; and an entry
of a supplied order with no matching data rows produces no trace. -/
theorem px_category_orderings
    (pairs : List (String × String)) (symSupplied colorSupplied : List String)
    (symSeq colorSeq : List String) (tr : GTrace) (i j : Nat) (c : String)
    (hsn : symSupplied.Nodup) (hcn : colorSupplied.Nodup)
    (htr : tr ∈ pxGroupedScatter pairs symSupplied colorSupplied symSeq colorSeq) :
    (∀ (hi : i < (fullOrder symSupplied (symCats pairs)).length)
       (his : i < symSeq.length),
       tr.symCat = (fullOrder symSupplied (symCats pairs)).get ⟨i, hi⟩ →
       tr.symbol = symSeq.get ⟨i, his⟩) ∧
    (∀ (hj : j < (fullOrder colorSupplied (colorCats pairs)).length)
       (hjs : j < colorSeq.length),
       tr.colorCat = (fullOrder colorSupplied (colorCats pairs)).get ⟨j, hj⟩ →
       tr.color = colorSeq.get ⟨j, hjs⟩) ∧
    (c ∈ symCats pairs → c ∉ symSupplied →
      c ∈ fullOrder symSupplied (symCats pairs) ∧
      symSupplied.length ≤ (fullOrder symSupplied (symCats pairs)).indexOf c) ∧
    (c ∈ symSupplied → c ∉ pairs.map Prod.fst → tr.symCat ≠ c) := by
  obtain ⟨pc, hpc, htr'⟩ := List.mem_map.mp htr
  refine ⟨?_, ?_, ?_, ?_⟩
  · intro hi his hcat
    rw [← htr'] at hcat ⊢
    show symSeq.getD
        ((fullOrder symSupplied (symCats pairs)).indexOf pc.1 % symSeq.length) "" = _
    have hcat' : pc.1 = (fullOrder symSupplied (symCats pairs)).get ⟨i, hi⟩ := hcat
    have hnd : (fullOrder symSupplied (symCats pairs)).Nodup :=
      fullOrder_nodup _ _ hsn (firstDedup_nodup _)
    rw [hcat', List.get_indexOf hnd, Nat.mod_eq_of_lt his, List.getD_eq_get _ _ his]
  · intro hj hjs hcat
    rw [← htr'] at hcat ⊢
    show colorSeq.getD
        ((fullOrder colorSupplied (colorCats pairs)).indexOf pc.2 % colorSeq.length) "" = _
    have hcat' : pc.2 = (fullOrder colorSupplied (colorCats pairs)).get ⟨j, hj⟩ := hcat
    have hnd : (fullOrder colorSupplied (colorCats pairs)).Nodup :=
      fullOrder_nodup _ _ hcn (firstDedup_nodup _)
    rw [hcat', List.get_indexOf hnd, Nat.mod_eq_of_lt hjs, List.getD_eq_get _ _ hjs]
  · intro hc hns
    have hfil : c ∈ (symCats pairs).filter (fun u => !symSupplied.contains u) :=
      List.mem_filter.mpr ⟨hc, by simpa [List.elem_iff] using hns⟩
    constructor
    · rw [fullOrder]
      exact List.mem_append_right _ hfil
    · rw [fullOrder, List.indexOf_append_of_not_mem hns]
      exact Nat.le_add_right _ _
  · intro hcs hnp
    rw [← htr']
    show pc.1 ≠ c
    rintro rfl
    exact hnp (List.mem_map_of_mem _ hpc)

/-- C3 witness: days supplied as `["Sun", "x"]` (with `x` having no data
rows) and data categories `Sun, Sat, Dinner`: the trace for `Sat` — the
category at position 2 of the combined order — gets the third symbol
`square` and the first color `red`; `Sat` is appended after the supplied
entries; and no trace carries the dataless `x`. -/
theorem px_category_orderings_witness :
    ((["Sun", "x"] : List String).Nodup ∧ (["Dinner"] : List String).Nodup ∧
     (⟨"Sat", "Dinner", "square", "red"⟩ : GTrace) ∈
       pxGroupedScatter [("Sun", "Dinner"), ("Sat", "Dinner")] ["Sun", "x"]
         ["Dinner"] ["circle", "diamond", "square"] ["red", "blue"]) ∧
    (GTrace.symbol ⟨"Sat", "Dinner", "square", "red"⟩ =
       (["circle", "diamond", "square"] : List String).get ⟨2, by decide⟩ ∧
     GTrace.color ⟨"Sat", "Dinner", "square", "red"⟩ =
       (["red", "blue"] : List String).get ⟨0, by decide⟩ ∧
     ("Sat" ∈ fullOrder ["Sun", "x"] (symCats [("Sun", "Dinner"), ("Sat", "Dinner")]) ∧
      (["Sun", "x"] : List String).length ≤
        (fullOrder ["Sun", "x"]
          (symCats [("Sun", "Dinner"), ("Sat", "Dinner")])).indexOf "Sat") ∧
     GTrace.symCat ⟨"Sat", "Dinner", "square", "red"⟩ ≠ "x") :=
  ⟨⟨by decide, by decide, by decide⟩,
   (px_category_orderings [("Sun", "Dinner"), ("Sat", "Dinner")] ["Sun", "x"]
       ["Dinner"] ["circle", "diamond", "square"] ["red", "blue"]
       ⟨"Sat", "Dinner", "square", "red"⟩ 2 0 "Sat"
       (by decide) (by decide) (by decide)).1 (by decide) (by decide) (by decide),
   (px_category_orderings [("Sun", "Dinner"), ("Sat", "Dinner")] ["Sun", "x"]
       ["Dinner"] ["circle", "diamond", "square"] ["red", "blue"]
       ⟨"Sat", "Dinner", "square", "red"⟩ 2 0 "Sat"
       (by decide) (by decide) (by decide)).2.1 (by decide) (by decide) (by decide),
   (px_category_orderings [("Sun", "Dinner"), ("Sat", "Dinner")] ["Sun", "x"]
       ["Dinner"] ["circle", "diamond", "square"] ["red", "blue"]
       ⟨"Sat", "Dinner", "square", "red"⟩ 2 0 "Sat"
       (by decide) (by decide) (by decide)).2.2.1 (by decide) (by decide),
   (px_category_orderings [("Sun", "Dinner"), ("Sat", "Dinner")] ["Sun", "x"]
       ["Dinner"] ["circle", "diamond", "square"] ["red", "blue"]
       ⟨"Sat", "Dinner", "square", "red"⟩ 2 0 "x"
       (by decide) (by decide) (by decide)).2.2.2 (by decide) (by decide)⟩

end Plotly
